import Mathlib

/-!
Shallow embedding of the image-optimization repository:
  * `src/functions/url-rewrite/index.js` — the CloudFront viewer-request
    handler that validates transformation query parameters, negotiates
    `format=auto` against the `accept` header, and rewrites the request
    uri to a canonical key.
  * `src/lib/image-optimization-stack.ts` (and the unnamed stack variant)
    — the CDK stack; of it we embed the origin-group fallback
    configuration (status codes, shared-secret header).

Strings are modelled with Lean `String` (a list of chars); JavaScript's
`parseInt`, `toLowerCase`, `includes` and number-to-string conversion are
given explicit executable models below.
-/

/-- ASCII lower-casing of a string, one char at a time; models
JavaScript's `toLowerCase()` on the ASCII inputs the handler compares
against. -/
def jsToLower (s : String) : String := ⟨s.data.map Char.toLower⟩

/-- `charsStartWith p s` is true iff `p` is an initial segment of `s`. -/
def charsStartWith : List Char → List Char → Bool
  | [], _ => true
  | _ :: _, [] => false
  | p :: ps, c :: cs => p = c && charsStartWith ps cs

/-- `charsContain p s` is true iff `p` occurs contiguously inside `s`. -/
def charsContain (p : List Char) : List Char → Bool
  | [] => charsStartWith p []
  | s@(_ :: rest) => charsStartWith p s || charsContain p rest

/-- Model of JavaScript `s.includes(pat)` for the non-empty literal
patterns used by the handler (`"avif"`, `"webp"`): substring test. -/
def jsIncludes (s pat : String) : Bool := charsContain pat.data s.data

/-- JavaScript whitespace skipped by `parseInt` (ASCII part). -/
def isJsSpace (c : Char) : Bool :=
  c = ' ' || c = '\t' || c = '\n' || c = '\r' || c = '\x0b' || c = '\x0c'

/-- The numeric value of `c` as a digit in base `radix` (10 or 16),
if it is one. -/
def charDigit (radix : Nat) (c : Char) : Option Nat :=
  if '0' ≤ c ∧ c ≤ '9' then some (c.toNat - '0'.toNat)
  else if radix = 16 ∧ 'a' ≤ c ∧ c ≤ 'f' then some (c.toNat - 'a'.toNat + 10)
  else if radix = 16 ∧ 'A' ≤ c ∧ c ≤ 'F' then some (c.toNat - 'A'.toNat + 10)
  else none

/-- Accumulate the longest leading run of base-`radix` digits; `none`
when no digit at all was consumed (JavaScript's `NaN`). -/
def leadingDigits (radix : Nat) : List Char → Nat → Bool → Option Nat
  | [], acc, seen => if seen then some acc else none
  | c :: cs, acc, seen =>
    match charDigit radix c with
    | some d => leadingDigits radix cs (acc * radix + d) true
    | none => if seen then some acc else none

/-- After sign handling: an optional `0x`/`0X` prefix selects base 16,
otherwise base 10 (JavaScript `parseInt` with no radix argument). -/
def parseIntBody : List Char → Option Nat
  | '0' :: 'x' :: rest => leadingDigits 16 rest 0 false
  | '0' :: 'X' :: rest => leadingDigits 16 rest 0 false
  | cs => leadingDigits 10 cs 0 false

/-- Model of JavaScript `parseInt(s)`: skip whitespace, read an optional
sign, then the longest digit run; `none` models `NaN`. -/
def jsParseInt (s : String) : Option Int :=
  match s.data.dropWhile isJsSpace with
  | '-' :: rest => (parseIntBody rest).map (fun n => -(n : Int))
  | '+' :: rest => (parseIntBody rest).map (fun n => (n : Int))
  | cs => (parseIntBody cs).map (fun n => (n : Int))

/-- Decimal rendering of a non-negative count; used to model
JavaScript's `Number.prototype.toString` on the positive integers the
handler stores. -/
def natDecimal (n : Nat) : String :=
  ⟨(Nat.toDigits 10 n)⟩

/-- Model of `width.toString()` etc. for the integers the handler keeps
(all strictly positive). -/
def jsIntToString (i : Int) : String :=
  if i < 0 then "-" ++ natDecimal i.natAbs else natDecimal i.natAbs

/-!
## The CloudFront viewer-request event

`src/functions/url-rewrite/index.js` receives `event.request` with a
`uri`, a `querystring` object mapping parameter names to `{value}`
records, a `headers` object mapping (lowercased) header names to
`{value}` records, and a `method`.  The two objects are modelled as
association lists in insertion order (JavaScript `Object.keys`
enumerates string keys in insertion order, and keys are unique). -/
structure Request where
  uri : String
  querystring : List (String × String)
  headers : List (String × String)
  method : String
  deriving DecidableEq

/-- JavaScript property read `headers[name]` on an object modelled as
an association list: the value at the first matching key. -/
def getHeader (hs : List (String × String)) (name : String) : Option String :=
  (hs.find? (fun p => p.1 = name)).map (·.2)

/-- The `imageOperations` accumulator of the handler: one optional
normalized string per recognized operation. -/
structure ImageOperations where
  format : Option String := none
  width : Option String := none
  height : Option String := none
  quality : Option String := none
  deriving DecidableEq

/-- `Object.keys(imageOperations).length > 0`. -/
def ImageOperations.hasAny (ops : ImageOperations) : Bool :=
  ops.format.isSome || ops.width.isSome || ops.height.isSome || ops.quality.isSome

/-- `let SUPPORTED_FORMATS = ['auto', 'jpeg', 'webp', 'avif', 'png'];` -/
def SUPPORTED_FORMATS : List String := ["auto", "jpeg", "webp", "avif", "png"]

/-- The body of `case 'format'` once the value is accepted: `auto` is
replaced by the format negotiated from the `accept` header (`avif`
first, then `webp`, defaulting to `jpeg`); other formats pass through. -/
def resolveFormat (accept : Option String) (format : String) : String :=
  if format = "auto" then
    match accept with
    | none => "jpeg"
    | some a =>
      if jsIncludes a "avif" then "avif"
      else if jsIncludes a "webp" then "webp"
      else "jpeg"
  else format

/-- Which `imageOperations` field a switch case writes. -/
inductive OpField
  | format
  | width
  | height
  | quality
  deriving DecidableEq

/-- The query-parameter name each field is recognized under. -/
def OpField.name : OpField → String
  | .format => "format"
  | .width => "width"
  | .height => "height"
  | .quality => "quality"

/-- Write one field of the accumulator (`imageOperations['...'] = ...`). -/
def ImageOperations.set (ops : ImageOperations) : OpField → String → ImageOperations
  | .format, s => { ops with format := some s }
  | .width, s => { ops with width := some s }
  | .height, s => { ops with height := some s }
  | .quality, s => { ops with quality := some s }

/-- One iteration of the `switch (operation.toLowerCase())` over a query
parameter `(name, value)`: the field that gets written and the string it
is set to, or `none` when the case drops the parameter (empty/invalid
value, or unrecognized name falling to `default`).  The accumulator is
never read, so the update is returned separately. -/
def operationUpdate (accept : Option String) (op : String × String) :
    Option (OpField × String) :=
  if jsToLower op.1 = "format" then
    -- case 'format': accepted iff the value is truthy and its
    -- lower-casing is in SUPPORTED_FORMATS; 'auto' is negotiated.
    if op.2 ≠ "" ∧ jsToLower op.2 ∈ SUPPORTED_FORMATS then
      some (.format, resolveFormat accept (jsToLower op.2))
    else none
  else if jsToLower op.1 = "width" then
    -- case 'width': parseInt, accepted iff not NaN and > 0.
    if op.2 ≠ "" then
      match jsParseInt op.2 with
      | some w => if 0 < w then some (.width, jsIntToString w) else none
      | none => none
    else none
  else if jsToLower op.1 = "height" then
    -- case 'height': same rule as width.
    if op.2 ≠ "" then
      match jsParseInt op.2 with
      | some h => if 0 < h then some (.height, jsIntToString h) else none
      | none => none
    else none
  else if jsToLower op.1 = "quality" then
    -- case 'quality': parseInt, accepted iff not NaN and > 0,
    -- clamped to 100 when above 100.
    if op.2 ≠ "" then
      match jsParseInt op.2 with
      | some q =>
        if 0 < q then some (.quality, jsIntToString (if 100 < q then 100 else q))
        else none
      | none => none
    else none
  else none

/-- Apply one switch iteration to the accumulator. -/
def applyOperation (accept : Option String) (ops : ImageOperations)
    (op : String × String) : ImageOperations :=
  match operationUpdate accept op with
  | some (f, s) => ops.set f s
  | none => ops

/-- The whole `Object.keys(request.querystring).forEach(...)` loop:
fold every query parameter into the accumulator, starting empty. -/
def computeOperations (accept : Option String)
    (qs : List (String × String)) : ImageOperations :=
  qs.foldl (applyOperation accept) {}

/-- The token list pushed onto `queryStrings`, in the source's fixed
order: format, quality, width, height (absent fields omitted). -/
def queryStringTokens (ops : ImageOperations) : List String :=
  (match ops.format with | some f => ["format=" ++ f] | none => []) ++
  (match ops.quality with | some q => ["quality=" ++ q] | none => []) ++
  (match ops.width with | some w => ["width=" ++ w] | none => []) ++
  (match ops.height with | some h => ["height=" ++ h] | none => [])

/-- `queryStrings.join(',')`. -/
def joinComma : List String → String
  | [] => ""
  | t :: ts => ts.foldl (fun a b => a ++ "," ++ b) t

/-- The handler of `src/functions/url-rewrite/index.js`: validate and
normalize the query parameters, rewrite `uri` to the canonical key
(`<path>/<token-list>`, or `<path>/original` when no valid operation was
found — in the source both the empty-`forEach` path and the
no-querystring branch produce the same suffix), and clear the query
string. -/
def handler (r : Request) : Request :=
  let originalImagePath := r.uri
  let imageOperations :=
    computeOperations (getHeader r.headers "accept") r.querystring
  let uri :=
    if imageOperations.hasAny then
      originalImagePath ++ "/" ++ joinComma (queryStringTokens imageOperations)
    else
      originalImagePath ++ "/original"
  { r with uri := uri, querystring := [] }

/-!
## Structural lemmas about the parameter loop
-/

/-- A switch case only ever writes the field whose name is the
lower-cased parameter name that selected the case. -/
theorem operationUpdate_name (accept : Option String) (op : String × String)
    (f : OpField) (s : String) (h : operationUpdate accept op = some (f, s)) :
    OpField.name f = jsToLower op.1 := by
  unfold operationUpdate at h
  split_ifs at h <;>
    (try split at h) <;>
    (try split_ifs at h) <;>
    simp_all [OpField.name] <;>
    (obtain ⟨hf, -⟩ := h; cases hf; rfl)

/-- Writes to distinct fields of the accumulator commute. -/
theorem ImageOperations.set_comm (ops : ImageOperations) (f g : OpField)
    (s t : String) (h : f ≠ g) :
    (ops.set f s).set g t = (ops.set g t).set f s := by
  cases f <;> cases g <;> first | rfl | exact absurd rfl h

/-- Switch iterations for parameters whose lower-cased names differ
commute: each one either drops its parameter or writes a field named by
its own parameter name, and those fields are distinct. -/
theorem applyOperation_comm (accept : Option String) (x y : String × String)
    (h : jsToLower x.1 ≠ jsToLower y.1) (z : ImageOperations) :
    applyOperation accept (applyOperation accept z x) y
      = applyOperation accept (applyOperation accept z y) x := by
  unfold applyOperation
  rcases hx : operationUpdate accept x with _ | ⟨fx, sx⟩ <;>
    rcases hy : operationUpdate accept y with _ | ⟨fy, sy⟩ <;>
      simp only [hx, hy]
  exact ImageOperations.set_comm z fx fy sx sy (fun hf => h (by
    rw [← operationUpdate_name accept x fx sx hx,
      ← operationUpdate_name accept y fy sy hy, hf]))

/-- Folding a permuted list gives the same result when the fold step
commutes on the elements of the list. -/
theorem foldl_perm_of_comm {α β : Type} {f : β → α → β} {l₁ l₂ : List α}
    (p : l₁.Perm l₂)
    (hc : ∀ x ∈ l₁, ∀ y ∈ l₁, ∀ z, f (f z x) y = f (f z y) x) :
    ∀ b, l₁.foldl f b = l₂.foldl f b := by
  induction p with
  | nil => intro b; rfl
  | cons a p ih =>
    intro b
    simp only [List.foldl_cons]
    exact ih (fun x hx y hy z =>
      hc x (List.mem_cons_of_mem a hx) y (List.mem_cons_of_mem a hy) z) (f b a)
  | swap a a' l =>
    intro b
    simp only [List.foldl_cons]
    rw [hc a (by simp) a' (by simp) b]
  | trans p₁ p₂ ih₁ ih₂ =>
    intro b
    rw [ih₁ hc b]
    exact ih₂ (fun x hx y hy z =>
      hc x (p₁.symm.subset hx) y (p₁.symm.subset hy) z) b

/-- If every query parameter of a list is dropped by its switch case,
the fold leaves the accumulator unchanged. -/
theorem foldl_applyOperation_of_none (accept : Option String) :
    ∀ (qs : List (String × String)) (init : ImageOperations),
      (∀ op ∈ qs, operationUpdate accept op = none) →
      qs.foldl (applyOperation accept) init = init
  | [], _, _ => rfl
  | op :: qs, init, h => by
    simp only [List.foldl_cons]
    have h1 : applyOperation accept init op = init := by
      unfold applyOperation
      rw [h op (List.mem_cons_self op qs)]
    rw [h1]
    exact foldl_applyOperation_of_none accept qs init
      (fun o ho => h o (List.mem_cons_of_mem op ho))

/-- With no accepted operation the accumulator stays empty. -/
theorem computeOperations_eq_empty (accept : Option String)
    (qs : List (String × String))
    (h : ∀ op ∈ qs, operationUpdate accept op = none) :
    computeOperations accept qs = {} :=
  foldl_applyOperation_of_none accept qs {} h

/-!
## Claim theorems
-/

/-- C1 fails as literally stated: the two querystring mappings below
hold the same recognized name/value pairs (`width`/`300` and
`WIDTH`/`400`, both recognized case-insensitively as width) in different
orders, yet the handler rewrites them to different canonical keys,
because the later iteration overwrites the earlier one. -/
theorem c1_counterexample :
    List.Perm
      [(("width" : String), ("300" : String)), ("WIDTH", "400")]
      [("WIDTH", "400"), ("width", "300")] ∧
    (handler ⟨"/cat.png", [("width", "300"), ("WIDTH", "400")], [], "GET"⟩).uri
      = "/cat.png/width=400" ∧
    (handler ⟨"/cat.png", [("WIDTH", "400"), ("width", "300")], [], "GET"⟩).uri
      = "/cat.png/width=300" := by
  refine ⟨?_, by decide, by decide⟩
  exact List.Perm.swap _ _ _

/-- C1 (amended): for two requests with the same path and headers whose
querystrings are permutations of the same name/value pairs, and in which
no two parameter names collide after lower-casing, the handler produces
the same canonical key: the token list is emitted in the fixed order
format, quality, width, height, independent of parameter order. -/
theorem c1_canonical_key_order_independent (r1 r2 : Request)
    (huri : r1.uri = r2.uri) (hheaders : r1.headers = r2.headers)
    (hperm : r1.querystring.Perm r2.querystring)
    (hnodup : (r1.querystring.map (fun p => jsToLower p.1)).Nodup) :
    (handler r1).uri = (handler r2).uri := by
  have hops : computeOperations (getHeader r1.headers "accept") r1.querystring
      = computeOperations (getHeader r2.headers "accept") r2.querystring := by
    rw [← hheaders]
    unfold computeOperations
    refine foldl_perm_of_comm hperm (fun x hx y hy z => ?_) ({} : ImageOperations)
    by_cases hxy : x = y
    · rw [hxy]
    · exact applyOperation_comm _ x y
        (fun hlow => hxy (List.inj_on_of_nodup_map hnodup hx hy hlow)) z
  simp only [handler, hops, huri]

/-- Witness for C1 at a concrete input. -/
theorem c1_witness :
    (handler ⟨"/cat.png", [("format", "png"), ("width", "300")], [], "GET"⟩).uri
      = (handler ⟨"/cat.png", [("width", "300"), ("format", "png")], [], "GET"⟩).uri :=
  c1_canonical_key_order_independent _ _ rfl rfl (by decide) (by decide)

/-- C2: whenever every query parameter is dropped (unrecognized name or
rejected value) — which includes the empty querystring — the handler
rewrites the uri to the original path followed by `/original`. -/
theorem c2_no_ops_original (r : Request)
    (h : ∀ op ∈ r.querystring,
      operationUpdate (getHeader r.headers "accept") op = none) :
    (handler r).uri = r.uri ++ "/original" := by
  have hops := computeOperations_eq_empty (getHeader r.headers "accept")
    r.querystring h
  simp only [handler, hops]
  rfl

/-- Witness for C2 at a concrete input. -/
theorem c2_witness :
    (handler ⟨"/cat.png", [("bogus", "1")], [], "GET"⟩).uri
      = "/cat.png" ++ "/original" :=
  c2_no_ops_original ⟨"/cat.png", [("bogus", "1")], [], "GET"⟩ (by decide)

/-- C8: for every request the handler returns a request whose
querystring is empty, and whose fields other than `uri` and
`querystring` (headers, method) are unchanged. -/
theorem c8_clears_query_preserves_rest (r : Request) :
    (handler r).querystring = [] ∧
    (handler r).headers = r.headers ∧
    (handler r).method = r.method :=
  ⟨rfl, rfl, rfl⟩

/-- A field other than `format` being written leaves `format` alone. -/
theorem set_preserves_format (ops : ImageOperations) (f : OpField) (s : String)
    (h : f ≠ OpField.format) : (ops.set f s).format = ops.format := by
  cases f <;> first | exact absurd rfl h | rfl

/-- Folding parameters none of which is named `format` (after
lower-casing) never populates the `format` field. -/
theorem foldl_preserves_format_none (accept : Option String) :
    ∀ (qs : List (String × String)) (init : ImageOperations),
      (∀ op ∈ qs, jsToLower op.1 ≠ "format") → init.format = none →
      (qs.foldl (applyOperation accept) init).format = none
  | [], _, _, hinit => hinit
  | op :: qs, init, h, hinit => by
    simp only [List.foldl_cons]
    refine foldl_preserves_format_none accept qs _
      (fun o ho => h o (List.mem_cons_of_mem op ho)) ?_
    unfold applyOperation
    rcases hu : operationUpdate accept op with _ | ⟨f, s⟩
    · exact hinit
    · rw [set_preserves_format init f s ?_]
      · exact hinit
      · intro hf
        exact h op (List.mem_cons_self op qs)
          (by rw [← operationUpdate_name accept op f s hu, hf]; rfl)

/-- The `case 'format'` branch, for any parameter whose lower-cased
name is `format`. -/
theorem operationUpdate_of_format (accept : Option String)
    (op : String × String) (h : jsToLower op.1 = "format") :
    operationUpdate accept op
      = if op.2 ≠ "" ∧ jsToLower op.2 ∈ SUPPORTED_FORMATS then
          some (.format, resolveFormat accept (jsToLower op.2))
        else none := by
  unfold operationUpdate
  rw [h]
  rfl

/-- The `case 'width'` branch, for any parameter whose lower-cased name
is `width`. -/
theorem operationUpdate_of_width (accept : Option String)
    (op : String × String) (h : jsToLower op.1 = "width") :
    operationUpdate accept op
      = if op.2 ≠ "" then
          match jsParseInt op.2 with
          | some w => if 0 < w then some (.width, jsIntToString w) else none
          | none => none
        else none := by
  unfold operationUpdate
  rw [h]
  rfl

/-- The `case 'height'` branch, for any parameter whose lower-cased
name is `height`. -/
theorem operationUpdate_of_height (accept : Option String)
    (op : String × String) (h : jsToLower op.1 = "height") :
    operationUpdate accept op
      = if op.2 ≠ "" then
          match jsParseInt op.2 with
          | some w => if 0 < w then some (.height, jsIntToString w) else none
          | none => none
        else none := by
  unfold operationUpdate
  rw [h]
  rfl

/-- The `case 'quality'` branch, for any parameter whose lower-cased
name is `quality`. -/
theorem operationUpdate_of_quality (accept : Option String)
    (op : String × String) (h : jsToLower op.1 = "quality") :
    operationUpdate accept op
      = if op.2 ≠ "" then
          match jsParseInt op.2 with
          | some q =>
            if 0 < q then some (.quality, jsIntToString (if 100 < q then 100 else q))
            else none
          | none => none
        else none := by
  unfold operationUpdate
  rw [h]
  rfl

/-- C3 fails as stated: here the `format` parameter is absent and the
`Accept` header contains both AVIF and WebP indicators, yet the handler
performs no negotiation — the descriptor carries no format at all and
the canonical key has no format token (negotiation happens only inside
the `case 'format'` branch, which never runs). -/
theorem c3_counterexample :
    (computeOperations (some "image/avif,image/webp,image/png")
      [(("width" : String), ("300" : String))]).format = none ∧
    (handler ⟨"/cat.png", [("width", "300")],
      [("accept", "image/avif,image/webp,image/png")], "GET"⟩).uri
      = "/cat.png/width=300" := by decide

/-- C3 (amended): the Format Negotiator runs only for an explicit
`format=auto`; when no query parameter is named `format`
(case-insensitively), the resolved descriptor carries no format at all,
whatever the `Accept` header says. -/
theorem c3_absent_format_not_negotiated (r : Request)
    (h : ∀ op ∈ r.querystring, jsToLower op.1 ≠ "format") :
    (computeOperations (getHeader r.headers "accept") r.querystring).format
      = none :=
  foldl_preserves_format_none (getHeader r.headers "accept")
    r.querystring {} h rfl

/-- Witness for C3 (amended) at a concrete input. -/
theorem c3_witness :
    (computeOperations
      (getHeader (Request.mk "/cat.png" [("width", "300")]
        [("accept", "image/avif")] "GET").headers "accept")
      (Request.mk "/cat.png" [("width", "300")]
        [("accept", "image/avif")] "GET").querystring).format = none :=
  c3_absent_format_not_negotiated
    ⟨"/cat.png", [("width", "300")], [("accept", "image/avif")], "GET"⟩
    (by decide)

/-- C4: with `format=auto`, the canonical key's format token is `avif`
whenever the `accept` header value contains `"avif"` (taking precedence
over `webp`), else `webp` whenever it contains `"webp"`, else `jpeg`;
with no `accept` header at all the token is `jpeg`. -/
theorem c4_auto_format_negotiation (p m a : String) :
    (handler ⟨p, [("format", "auto")], [("accept", a)], m⟩).uri
      = p ++ "/" ++ ("format=" ++
          (if jsIncludes a "avif" then "avif"
           else if jsIncludes a "webp" then "webp"
           else "jpeg")) ∧
    (handler ⟨p, [("format", "auto")], [], m⟩).uri
      = p ++ "/" ++ "format=jpeg" := by
  constructor <;> rfl

/-- The `width` field produced by a querystring holding exactly one
`width` parameter. -/
theorem computeOperations_width_singleton (accept : Option String) (v : String) :
    (computeOperations accept [("width", v)]).width
      = match jsParseInt v with
        | some w => if 0 < w then some (jsIntToString w) else none
        | none => none := by
  show (applyOperation accept {} ("width", v)).width = _
  unfold applyOperation
  rw [operationUpdate_of_width accept ("width", v) rfl]
  by_cases hv : v = ""
  · subst hv; rfl
  · rw [if_pos hv]
    rcases hp : jsParseInt v with _ | w
    · rfl
    · dsimp only
      by_cases hw : 0 < w
      · rw [if_pos hw, if_pos hw]; rfl
      · rw [if_neg hw, if_neg hw]

/-- The `height` field produced by a querystring holding exactly one
`height` parameter. -/
theorem computeOperations_height_singleton (accept : Option String) (v : String) :
    (computeOperations accept [("height", v)]).height
      = match jsParseInt v with
        | some w => if 0 < w then some (jsIntToString w) else none
        | none => none := by
  show (applyOperation accept {} ("height", v)).height = _
  unfold applyOperation
  rw [operationUpdate_of_height accept ("height", v) rfl]
  by_cases hv : v = ""
  · subst hv; rfl
  · rw [if_pos hv]
    rcases hp : jsParseInt v with _ | w
    · rfl
    · dsimp only
      by_cases hw : 0 < w
      · rw [if_pos hw, if_pos hw]; rfl
      · rw [if_neg hw, if_neg hw]

/-- The `quality` field produced by a querystring holding exactly one
`quality` parameter. -/
theorem computeOperations_quality_singleton (accept : Option String) (v : String) :
    (computeOperations accept [("quality", v)]).quality
      = match jsParseInt v with
        | some q =>
          if 0 < q then some (jsIntToString (if 100 < q then 100 else q))
          else none
        | none => none := by
  show (applyOperation accept {} ("quality", v)).quality = _
  unfold applyOperation
  rw [operationUpdate_of_quality accept ("quality", v) rfl]
  by_cases hv : v = ""
  · subst hv; rfl
  · rw [if_pos hv]
    rcases hp : jsParseInt v with _ | q
    · rfl
    · dsimp only
      by_cases hq : 0 < q
      · rw [if_pos hq, if_pos hq]; rfl
      · rw [if_neg hq, if_neg hq]

/-- C5: a `width` (resp. `height`) parameter lands in the descriptor
exactly when integer parsing succeeds with a strictly positive value;
`0`, `-5` and `abc` are all dropped, and a dropped value does not abort
the request (the remaining valid parameters still make the key). -/
theorem c5_width_height_validation (accept : Option String) (v : String) :
    (((computeOperations accept [("width", v)]).width).isSome ↔
      ∃ w, jsParseInt v = some w ∧ 0 < w) ∧
    (((computeOperations accept [("height", v)]).height).isSome ↔
      ∃ w, jsParseInt v = some w ∧ 0 < w) ∧
    (computeOperations accept [("width", "0")]).width = none ∧
    (computeOperations accept [("width", "-5")]).width = none ∧
    (computeOperations accept [("width", "abc")]).width = none ∧
    (handler ⟨"/cat.png", [("width", "abc"), ("quality", "55")], [], "GET"⟩).uri
      = "/cat.png/quality=55" := by
  refine ⟨?_, ?_, ?_, ?_, ?_, by decide⟩
  · rw [computeOperations_width_singleton]
    rcases hp : jsParseInt v with _ | w
    · simp
    · by_cases hw : 0 < w
      · simp [hw]
      · simp [hw]
  · rw [computeOperations_height_singleton]
    rcases hp : jsParseInt v with _ | w
    · simp
    · by_cases hw : 0 < w
      · simp [hw]
      · simp [hw]
  · rw [computeOperations_width_singleton]; decide
  · rw [computeOperations_width_singleton]; decide
  · rw [computeOperations_width_singleton]; decide

/-- C6: a `quality` value that fails to parse or is not strictly
positive is dropped; a parsed value above 100 is clamped to exactly
`100`; a parsed value in 1..100 is kept unchanged. -/
theorem c6_quality_validation (accept : Option String) (v : String) :
    (jsParseInt v = none →
      (computeOperations accept [("quality", v)]).quality = none) ∧
    (∀ q : Int, jsParseInt v = some q → q ≤ 0 →
      (computeOperations accept [("quality", v)]).quality = none) ∧
    (∀ q : Int, jsParseInt v = some q → 100 < q →
      (computeOperations accept [("quality", v)]).quality = some "100") ∧
    (∀ q : Int, jsParseInt v = some q → 0 < q → q ≤ 100 →
      (computeOperations accept [("quality", v)]).quality
        = some (jsIntToString q)) := by
  refine ⟨fun hn => ?_, fun q hq hle => ?_, fun q hq hgt => ?_,
    fun q hq h0 hle => ?_⟩
  · rw [computeOperations_quality_singleton, hn]
  · rw [computeOperations_quality_singleton, hq]
    dsimp only
    rw [if_neg (by omega)]
  · rw [computeOperations_quality_singleton, hq]
    dsimp only
    rw [if_pos (by omega), if_pos hgt]
    decide
  · rw [computeOperations_quality_singleton, hq]
    dsimp only
    rw [if_pos h0, if_neg (by omega)]

/-- Witness for C6 at concrete inputs: `abc` and `0` dropped, `150`
clamped to `100`, `55` kept. -/
theorem c6_witness :
    (computeOperations none [("quality", "abc")]).quality = none ∧
    (computeOperations none [("quality", "0")]).quality = none ∧
    (computeOperations none [("quality", "150")]).quality = some "100" ∧
    (computeOperations none [("quality", "55")]).quality
      = some (jsIntToString 55) :=
  ⟨(c6_quality_validation none "abc").1 (by decide),
   (c6_quality_validation none "0").2.1 0 (by decide) (by decide),
   (c6_quality_validation none "150").2.2.1 150 (by decide) (by decide),
   (c6_quality_validation none "55").2.2.2 55 (by decide) (by decide)
     (by decide)⟩

/-- C7: a parameter whose name lower-cases to `format` (so the name is
matched case-insensitively) populates the descriptor's format exactly
when its value lower-cases into the supported set `auto, jpeg, webp,
avif, png`; `gif` and `bmp` are dropped, and a dropped format does not
abort the request. -/
theorem c7_format_validation (accept : Option String) (name v : String)
    (h : jsToLower name = "format") :
    ((computeOperations accept [(name, v)]).format.isSome ↔
      jsToLower v ∈ SUPPORTED_FORMATS) ∧
    (computeOperations accept [(name, "gif")]).format = none ∧
    (computeOperations accept [(name, "bmp")]).format = none ∧
    (handler ⟨"/cat.png", [(name, "gif"), ("width", "300")], [], "GET"⟩).uri
      = "/cat.png" ++ "/" ++ "width=300" := by
  refine ⟨?_, ?_, ?_, ?_⟩
  · show ((applyOperation accept {} (name, v)).format).isSome ↔ _
    unfold applyOperation
    rw [operationUpdate_of_format accept _ h]
    by_cases hm : jsToLower v ∈ SUPPORTED_FORMATS
    · have hv : v ≠ "" := by rintro rfl; revert hm; decide
      rw [if_pos ⟨hv, hm⟩]
      simp [ImageOperations.set, hm]
    · rw [if_neg (fun hc => hm hc.2)]
      simp [hm]
  · show (applyOperation accept {} (name, "gif")).format = none
    unfold applyOperation
    rw [operationUpdate_of_format accept _ h, if_neg (fun hc =>
      absurd hc.2 (show ¬(jsToLower "gif" ∈ SUPPORTED_FORMATS) by decide))]
  · show (applyOperation accept {} (name, "bmp")).format = none
    unfold applyOperation
    rw [operationUpdate_of_format accept _ h, if_neg (fun hc =>
      absurd hc.2 (show ¬(jsToLower "bmp" ∈ SUPPORTED_FORMATS) by decide))]
  · have hgif : operationUpdate none (name, "gif") = none := by
      rw [operationUpdate_of_format none _ h, if_neg (fun hc =>
        absurd hc.2 (show ¬(jsToLower "gif" ∈ SUPPORTED_FORMATS) by decide))]
    have hops : computeOperations
        (getHeader ([] : List (String × String)) "accept")
        [(name, "gif"), ("width", "300")]
        = { width := some "300" } := by
      show applyOperation none (applyOperation none {} (name, "gif"))
        ("width", "300") = _
      have h1 : applyOperation none ({} : ImageOperations) (name, "gif")
          = {} := by
        unfold applyOperation; rw [hgif]
      rw [h1]
      decide
    simp only [handler, hops]
    decide

/-- Witness for C7 at a concrete input (upper-case name and value). -/
theorem c7_witness :
    ((computeOperations none [("FORMAT", "PNG")]).format.isSome ↔
      jsToLower "PNG" ∈ SUPPORTED_FORMATS) ∧
    (computeOperations none [("FORMAT", "gif")]).format = none ∧
    (computeOperations none [("FORMAT", "bmp")]).format = none ∧
    (handler ⟨"/cat.png", [("FORMAT", "gif"), ("width", "300")], [], "GET"⟩).uri
      = "/cat.png" ++ "/" ++ "width=300" :=
  c7_format_validation none "FORMAT" "PNG" (by decide)

/-- C10: accepted numeric values are normalized through integer parsing
before entering the canonical key, so `width=0300`, `width=300` and
`width=300px` all produce the same token `width=300` (a numeric run
followed by trailing non-digits is accepted, not dropped). -/
theorem c10_numeric_normalization :
    (handler ⟨"/cat.png", [("width", "0300")], [], "GET"⟩).uri
      = "/cat.png/width=300" ∧
    (handler ⟨"/cat.png", [("width", "300")], [], "GET"⟩).uri
      = "/cat.png/width=300" ∧
    (handler ⟨"/cat.png", [("width", "300px")], [], "GET"⟩).uri
      = "/cat.png/width=300" := by decide

/-!
## The fallback origin router

`src/lib/image-optimization-stack.ts` declares a CloudFront
`OriginGroup` whose primary origin is the transformed-image store and
whose fallback origin is the image-processing Lambda URL, with
`fallbackStatusCodes: [403, 500, 503, 504]` and the custom header
`'x-origin-secret-header': SECRET_KEY` on the fallback origin (the
unnamed stack variant declares the identical group when the
transformed-image bucket exists).  The routing itself is performed by
CloudFront, outside this repository; it is modelled from the spec below,
parameterized by the configuration embedded here.
-/

/-- `fallbackStatusCodes: [403, 500, 503, 504]` of the OriginGroup. -/
def fallbackStatusCodes : List Nat := [403, 500, 503, 504]

/-- The fixed shared-secret header name sent to the fallback origin. -/
def originSecretHeaderName : String := "x-origin-secret-header"

/-- `customHeaders` configured on the fallback (Lambda URL) origin. -/
def fallbackCustomHeaders (secretKey : String) : List (String × String) :=
  [(originSecretHeaderName, secretKey)]

/-- One origin attempt made while serving a request: which origin was
contacted and the extra headers the distribution attached. -/
structure OriginAttempt where
  isFallback : Bool
  extraHeaders : List (String × String)
  deriving DecidableEq

/-- Modelled from the spec: the origin-group routing policy (spec §4.5,
Fallback Origin Router) is executed by the CDN, not by code in this
repository — the repository only declares its configuration.  Per the
spec, the primary origin is tried once; exactly when its response
status is in the configured trigger set, a single fallback invocation
follows, carrying the configured custom headers; there is no retry
loop. -/
def routeRequest (secretKey : String) (primaryStatus : Nat) :
    List OriginAttempt :=
  if primaryStatus ∈ fallbackStatusCodes then
    [⟨false, []⟩, ⟨true, fallbackCustomHeaders secretKey⟩]
  else
    [⟨false, []⟩]

/-- C9: the fallback origin is invoked exactly when the primary origin
answers 403, 500, 503 or 504; every fallback invocation carries the
`x-origin-secret-header` shared-secret header; and each request makes
at most one primary and at most one fallback attempt. -/
theorem c9_fallback_routing (secretKey : String) (primaryStatus : Nat) :
    (((routeRequest secretKey primaryStatus).any (·.isFallback)) = true ↔
      primaryStatus = 403 ∨ primaryStatus = 500 ∨ primaryStatus = 503 ∨
        primaryStatus = 504) ∧
    (∀ a ∈ routeRequest secretKey primaryStatus, a.isFallback = true →
      ("x-origin-secret-header", secretKey) ∈ a.extraHeaders) ∧
    (routeRequest secretKey primaryStatus).countP (fun a => !a.isFallback) ≤ 1 ∧
    (routeRequest secretKey primaryStatus).countP (·.isFallback) ≤ 1 := by
  unfold routeRequest
  by_cases hm : primaryStatus ∈ fallbackStatusCodes
  · rw [if_pos hm]
    refine ⟨?_, ?_, ?_, ?_⟩
    · constructor
      · intro _
        simpa [fallbackStatusCodes] using hm
      · intro _
        rfl
    · rintro a ha hf
      simp only [List.mem_cons, List.not_mem_nil, or_false] at ha
      rcases ha with rfl | rfl
      · exact Bool.noConfusion hf
      · simp [fallbackCustomHeaders, originSecretHeaderName]
    · exact Nat.le_refl 1
    · exact Nat.le_refl 1
  · rw [if_neg hm]
    refine ⟨?_, ?_, ?_, ?_⟩
    · constructor
      · intro h
        exact absurd h (by decide)
      · intro hd
        exact absurd (by simpa [fallbackStatusCodes] using hd) hm
    · rintro a ha hf
      simp only [List.mem_cons, List.not_mem_nil, or_false] at ha
      rcases ha with rfl
      exact Bool.noConfusion hf
    · exact Nat.le_refl 1
    · exact Nat.zero_le 1

/-- Witness for C9 at a concrete input: primary status 403, secret
`"s"` — the fallback attempt carries the shared-secret header. -/
theorem c9_witness :
    ("x-origin-secret-header", "s") ∈
      (OriginAttempt.mk true (fallbackCustomHeaders "s")).extraHeaders :=
  (c9_fallback_routing "s" 403).2.1
    ⟨true, fallbackCustomHeaders "s"⟩ (by decide) rfl

example : jsParseInt "300px" = some 300 := by decide
example : jsParseInt "0300" = some 300 := by decide
example : jsParseInt "abc" = none := by decide
example : jsParseInt "-5" = some (-5) := by decide
example : jsParseInt "0" = some 0 := by decide
example : jsIntToString 300 = "300" := by decide
example : jsToLower "WebP" = "webp" := by decide
example : jsIncludes "image/avif,image/webp" "avif" = true := by decide
example : jsIncludes "image/webp" "avif" = false := by decide
example :
    (handler ⟨"/cat.png", [("height", "200"), ("format", "png"), ("quality", "80")], [], "GET"⟩).uri
      = "/cat.png/format=png,quality=80,height=200" := by decide
example :
    (handler ⟨"/cat.png", [("width", "300"), ("format", "auto")],
      [("accept", "image/webp")], "GET"⟩).uri
      = "/cat.png/format=webp,width=300" := by decide
example :
    (handler ⟨"/cat.png", [("bogus", "1")], [], "GET"⟩).uri
      = "/cat.png/original" := by decide
example :
    (handler ⟨"/cat.png", [], [], "GET"⟩).uri = "/cat.png/original" := by decide
